import Mathlib

/-!
Verification of the AnyMesh geometry-analysis core (segmentation.py,
mesh_quality.py, compare.py, simplify.py) against its specification.

The embedding models machine floats as rationals (every float is a rational;
the algorithmic structure under verification does not depend on rounding),
except where the source takes an arccos, which is modelled with Real.arccos.
External collaborators (trimesh / open3d loading, sklearn KMeans, scipy
KDTree queries) are modelled as explicit inputs: their outputs are parameters
of the embedded operations, exactly as the source consumes them.
-/

namespace AnyMesh

/-! ### Numeric helpers shared by the analysis modules -/

/-- A 3D vector with rational coordinates (a float triple in the source). -/
abbrev Vec3 := ℚ × ℚ × ℚ

/-- Dot product of two 3D vectors (`np.dot(n1, n2)` on float triples). -/
def dot3 (a b : Vec3) : ℚ :=
  a.1 * b.1 + a.2.1 * b.2.1 + a.2.2 * b.2.2

/-- `np.clip(x, -1.0, 1.0)` from segmentation.py line 141. -/
def clip1 (x : ℚ) : ℚ := max (-1) (min 1 x)

/-- `np.mean` of a 1-D array. On an empty array numpy emits NaN with a
warning; here the rational convention `x / 0 = 0` stands in, and every
claim that touches the mean is settled on nonempty data. -/
def listMean (xs : List ℚ) : ℚ := xs.sum / xs.length

/-- `np.var` of a 1-D array: population variance, mean of squared
deviations from the mean. -/
def popVar (xs : List ℚ) : ℚ :=
  ((xs.map (fun x => (x - listMean xs) ^ 2)).sum) / xs.length

/-- Ascending sort of rationals, used to model numpy sorting semantics
(a stable sort; over a linear order the sorted output is unique anyway). -/
def sortQ (xs : List ℚ) : List ℚ :=
  xs.insertionSort (· ≤ ·)

/-- `np.median`: sort, take the middle element, or the mean of the two
middle elements when the length is even. -/
def npMedian (xs : List ℚ) : ℚ :=
  let ys := sortQ xs
  let n := ys.length
  if n % 2 = 1 then ys.getD (n / 2) 0
  else (ys.getD (n / 2 - 1) 0 + ys.getD (n / 2) 0) / 2

/-- `np.min` over a 1-D array. numpy raises ValueError on an empty array;
the raised exception is modelled as `Except.error`. -/
def npMin (xs : List ℚ) : Except String ℚ :=
  match xs with
  | [] => .error "zero-size array to reduction operation minimum which has no identity"
  | x :: rest => .ok (rest.foldl min x)

/-- `np.max` over a 1-D array. numpy raises ValueError on an empty array;
the raised exception is modelled as `Except.error`. -/
def npMax (xs : List ℚ) : Except String ℚ :=
  match xs with
  | [] => .error "zero-size array to reduction operation maximum which has no identity"
  | x :: rest => .ok (rest.foldl max x)

/-- `np.percentile(xs, q)` with the default linear interpolation method:
virtual index `h = q/100 * (n-1)` into the sorted data, linearly
interpolated between the two bracketing elements. -/
def npPercentile (xs : List ℚ) (q : ℚ) : ℚ :=
  let ys := sortQ xs
  let n := ys.length
  let h : ℚ := q / 100 * ((n : ℚ) - 1)
  let i : ℕ := (Int.floor h).toNat
  let lo := ys.getD i 0
  let hi := ys.getD (i + 1) lo
  lo + (h - (i : ℚ)) * (hi - lo)

/-! ### Edge-adjacency index (segmentation.py lines 106-121,
simplify.py lines 23-35, mesh_quality.py lines 27-38)

All three modules build the same structure: the canonical undirected edge
`tuple(sorted([a, b]))`, three edges per triangle, and the mapping from an
edge to the list of triangle indices containing it. -/

/-- A triangle as a triple of vertex indices. -/
abbrev Tri := ℕ × ℕ × ℕ

/-- `tuple(sorted([a, b]))`: the canonical undirected edge. -/
def canonEdge (a b : ℕ) : ℕ × ℕ := (min a b, max a b)

/-- The three edges a triangle contributes, in source order:
`(t0,t1), (t1,t2), (t2,t0)`, each canonicalized. -/
def edgeKeys (t : Tri) : List (ℕ × ℕ) :=
  [canonEdge t.1 t.2.1, canonEdge t.2.1 t.2.2, canonEdge t.2.2 t.1]

/-- The entry `edge_dict[e]` after the build loop: the list of triangle
indices appended for edge `e`, in iteration order, once per occurrence of
`e` among the three edges of that triangle. -/
def edgeTris (faces : List Tri) (e : ℕ × ℕ) : List ℕ :=
  (List.range faces.length).flatMap (fun i =>
    (edgeKeys (faces.getD i (0, 0, 0))).filterMap
      (fun e2 => if e2 = e then some i else none))

/-- The adjacency degree of an edge: the length of its triangle list
(spec section 4.1: the list length is the sole signal). -/
def edgeDegree (faces : List Tri) (e : ℕ × ℕ) : ℕ :=
  (edgeTris faces e).length

/-- All edge keys inserted into the dictionary, with repetition
(the keys of `edge_dict` are exactly the distinct members). -/
def edgeKeyList (faces : List Tri) : List (ℕ × ℕ) :=
  faces.flatMap edgeKeys

/-! ### Sharp-edge classification (segmentation.py lines 123-148) -/

/-- The threshold in radians: `np.radians(angle_threshold)`. -/
noncomputable def thresholdRad (deg : ℚ) : ℝ := (deg : ℝ) * Real.pi / 180

/-- Edge classification of `segment_by_sharp_edges` lines 126-148: an edge
with a single adjacent triangle (boundary) is sharp; an edge with exactly
two adjacent triangles is sharp when the dihedral angle
`arccos(clip(dot(n1, n2), -1, 1))` exceeds the threshold; all other edges
are not added to the sharp set. -/
def IsSharp (faces : List Tri) (normals : ℕ → Vec3) (θ : ℝ) (e : ℕ × ℕ) : Prop :=
  if (edgeTris faces e).length = 1 then True
  else if (edgeTris faces e).length = 2 then
    θ < Real.arccos ((clip1 (dot3 (normals ((edgeTris faces e).getD 0 0))
      (normals ((edgeTris faces e).getD 1 0))) : ℝ))
  else False

/-- The face-adjacency graph of lines 163-169: for each edge whose
triangle list has exactly two entries and which is not sharp, the two
triangles are connected (both symmetric matrix entries are set). -/
def SharpAdjacent (faces : List Tri) (normals : ℕ → Vec3) (θ : ℝ) (i j : ℕ) : Prop :=
  ∃ e, ¬ IsSharp faces normals θ e ∧
    (edgeTris faces e = [i, j] ∨ edgeTris faces e = [j, i])

/-- The relation the spec sentence describes: the two faces share an edge
that is not marked sharp. -/
def SharesNonSharpEdge (faces : List Tri) (normals : ℕ → Vec3) (θ : ℝ) (i j : ℕ) : Prop :=
  ∃ e, ¬ IsSharp faces normals θ e ∧ i ∈ edgeTris faces e ∧ j ∈ edgeTris faces e

/-! ### Triangle adjacency and curvature (simplify.py lines 13-91) -/

/-- The neighbor contribution of one dictionary entry in
`build_triangle_adjacency` lines 39-42: an edge whose triangle list is
exactly `[a, b]` makes `b` a neighbor of `a` and `a` a neighbor of `b`. -/
def neighborHit (faces : List Tri) (i : ℕ) (e : ℕ × ℕ) : Option ℕ :=
  match edgeTris faces e with
  | [a, b] => if a = i then some b else if b = i then some a else none
  | _ => none

/-- `build_triangle_adjacency` restricted to one triangle: the set of
neighbor indices of triangle `i` (a Python set in the source). -/
def build_triangle_adjacency (faces : List Tri) (i : ℕ) : Finset ℕ :=
  ((edgeKeyList faces).filterMap (neighborHit faces i)).toFinset

/-- `compute_triangle_curvature` lines 73-89: deviation 0 for a triangle
without neighbors, otherwise `1 - mean(dot(neighbor_normal, normal))`
over the neighbor set. -/
def compute_triangle_curvature (faces : List Tri) (normals : ℕ → Vec3) (i : ℕ) : ℚ :=
  let N := build_triangle_adjacency faces i
  if N = ∅ then 0
  else 1 - (N.sum (fun j => dot3 (normals j) (normals i))) / (N.card : ℚ)

/-! ### Connected-component labeling (segmentation.py line 172)

`scipy.sparse.csgraph.connected_components(adjacency, directed=False)`
labels each node with its component id; component ids are assigned in
order of first occurrence while scanning nodes in index order, so the id
of a component is the rank of its minimal node among the minimal nodes
of all the components, and the returned count is the number of components. The
graph is given by an arbitrary boolean matrix; `directed=False` reads it
symmetrically. -/

/-- The undirected graph of a boolean adjacency matrix on `n` nodes.
Diagonal entries (self loops) do not affect components and are dropped. -/
def segGraph (n : ℕ) (adj : ℕ → ℕ → Bool) : SimpleGraph (Fin n) :=
  SimpleGraph.fromRel (fun i j => adj i.val j.val = true)

instance (n : ℕ) (adj : ℕ → ℕ → Bool) : DecidableRel (segGraph n adj).Adj :=
  fun i j => decidable_of_iff _ (SimpleGraph.fromRel_adj _ i j).symm

/-- The minimal node of the component of `i`. -/
def compRep (n : ℕ) (adj : ℕ → ℕ → Bool) (i : Fin n) : Fin n :=
  (Finset.univ.filter (fun j => (segGraph n adj).Reachable i j)).min'
    ⟨i, Finset.mem_filter.mpr ⟨Finset.mem_univ i, SimpleGraph.Reachable.refl i⟩⟩

/-- The minimal nodes of all components, in ascending node order: the
order in which the components are first encountered. -/
def repList (n : ℕ) (adj : ℕ → ℕ → Bool) : List (Fin n) :=
  (List.finRange n).filter (fun i => decide (compRep n adj i = i))

/-- The component label of node `i`: the rank of its component among all
components in first-encounter order. -/
def ccLabel (n : ℕ) (adj : ℕ → ℕ → Bool) (i : Fin n) : ℕ :=
  (repList n adj).indexOf (compRep n adj i)

/-- The number of connected components (`n_components`). -/
def ccCount (n : ℕ) (adj : ℕ → ℕ → Bool) : ℕ :=
  (repList n adj).length

/-- The per-node label array (`triangle_labels`). -/
def ccLabels (n : ℕ) (adj : ℕ → ℕ → Bool) : List ℕ :=
  (List.finRange n).map (ccLabel n adj)

/-! ### Planar-region segmentation (segmentation.py lines 396-456)

The k-means over-clustering is an external sklearn call; its output, the
initial per-face label array, is an input of the embedded filtering stage,
together with the per-face normal array it was computed from. -/

/-- `triangle_normals[triangle_labels_initial == c]`: the normals of the
faces in over-cluster `c`, in face order. -/
def clusterNormals (labels : List ℕ) (normals : List Vec3) (c : ℕ) : List Vec3 :=
  (labels.zip normals).filterMap (fun p => if p.1 = c then some p.2 else none)

/-- `np.var(cluster_normals, axis=0).sum()`: the sum of the per-axis
population variances of a set of normals. -/
def normalVariance (ns : List Vec3) : ℚ :=
  popVar (ns.map (fun v => v.1)) + popVar (ns.map (fun v => v.2.1))
    + popVar (ns.map (fun v => v.2.2))

/-- `cluster_scores` after the scan of lines 407-420: for each cluster id
below `k` with at least 10 member faces, the triple
`(cluster_id, normal_variance, cluster_size)`; smaller clusters are
skipped entirely. -/
def clusterScores (labels : List ℕ) (normals : List Vec3) (k : ℕ) : List (ℕ × ℚ × ℕ) :=
  (List.range k).filterMap (fun c =>
    if (clusterNormals labels normals c).length < 10 then none
    else some (c, normalVariance (clusterNormals labels normals c),
      (clusterNormals labels normals c).length))

/-- The comparison `key=lambda x: x[1]` of the score sort. -/
def scoreLE (a b : ℕ × ℚ × ℕ) : Prop := a.2.1 ≤ b.2.1

instance : DecidableRel scoreLE := fun a b => inferInstanceAs (Decidable (a.2.1 ≤ b.2.1))

instance : IsTotal (ℕ × ℚ × ℕ) scoreLE := ⟨fun a b => le_total a.2.1 b.2.1⟩

instance : IsTrans (ℕ × ℚ × ℕ) scoreLE := ⟨fun _ _ _ h1 h2 => le_trans h1 h2⟩

/-- `cluster_scores.sort(key=lambda x: x[1])`: stable ascending sort by
variance (Python list.sort is stable; a stable sort is unique, so
insertion sort models it exactly). -/
def sortedScores (labels : List ℕ) (normals : List Vec3) (k : ℕ) : List (ℕ × ℚ × ℕ) :=
  (clusterScores labels normals k).insertionSort scoreLE

/-- The adaptive planarity threshold of line 429:
`max(0.005, np.median(variances) / 2)` over the scored variances. -/
def adaptiveThreshold (labels : List ℕ) (normals : List Vec3) (k : ℕ) : ℚ :=
  max (1 / 200) (npMedian ((sortedScores labels normals k).map (fun s => s.2.1)) / 2)

/-- `plane_clusters` of lines 432-435: the scored cluster ids whose
variance is strictly below the adaptive threshold, in ascending variance
order. -/
def planeClusters (labels : List ℕ) (normals : List Vec3) (k : ℕ) : List ℕ :=
  ((sortedScores labels normals k).filter
    (fun s => decide (s.2.1 < adaptiveThreshold labels normals k))).map (fun s => s.1)

/-- The clusters kept after truncation: `plane_clusters[:num_planes]`. -/
def keptClusters (labels : List ℕ) (normals : List Vec3) (numPlanes : ℕ) : List ℕ :=
  (planeClusters labels normals (max (numPlanes * 2) 10)).take numPlanes

/-- The relabeling of lines 449-453: a face whose initial cluster is the
`p`-th kept cluster (0-based) receives label `p + 1`; every other face
receives 0. The kept ids are pairwise distinct (proved below), so the
first index is the index. -/
def planeRelabel (kept : List ℕ) (l : ℕ) : ℕ :=
  if l ∈ kept then kept.indexOf l + 1 else 0

/-- The label-producing core of `segment_by_planes` lines 396-456: from
the k-means over-clustering `labels` (an external input) and the face
normals, the pair `(num_segments, triangle_labels)`. With no plane
cluster found the raw over-clustering is returned with
`num_planes = initial_clusters` (lines 441-445); otherwise faces of the
kept clusters are relabeled `1..K`, the rest get 0, and
`num_segments = K + 1` (lines 446-456). -/
def segment_by_planes (labels : List ℕ) (normals : List Vec3) (numPlanes : ℕ) :
    ℕ × List ℕ :=
  let k := max (numPlanes * 2) 10
  let pc := planeClusters labels normals k
  if pc.isEmpty then (k, labels)
  else
    let kept := pc.take numPlanes
    (kept.length + 1, labels.map (planeRelabel kept))

/-! ### Scalar-to-heatmap color mapper (mesh_quality.py lines 170-201 and
compare.py lines 15-54; the two functions are textually identical) -/

/-- `(x * 255).astype(np.uint8)` for `x` in `[0, 1]`: truncation toward
zero, which is the floor on nonnegative values. -/
def toByte (x : ℚ) : ℕ := (Int.floor (x * 255)).toNat

/-- The four-branch ramp of lines 181-195, producing the float channel
triple `(r, g, b)` for a clipped scalar `d`. -/
def rampRGB (d : ℚ) : ℚ × ℚ × ℚ :=
  if d < 1/4 then (0, d / (1/4), 1)
  else if d < 1/2 then (0, 1, 1 - (d - 1/4) / (1/4))
  else if d < 3/4 then ((d - 1/2) / (1/4), 1, 0)
  else (1, 1 - (d - 3/4) / (1/4), 0)

/-- `np.clip(values, 0.0, 1.0)` of line 20 / line 172. -/
def clip01 (v : ℚ) : ℚ := max 0 (min 1 v)

/-- The full per-scalar color mapping `scalar_to_rgba`: clip to `[0, 1]`,
apply the ramp, quantize each channel to a byte, alpha always 255. -/
def scalar_to_rgba (v : ℚ) : ℕ × ℕ × ℕ × ℕ :=
  (toByte (rampRGB (clip01 v)).1, toByte (rampRGB (clip01 v)).2.1,
   toByte (rampRGB (clip01 v)).2.2, 255)

/-! ### Mesh quality diagnostics (mesh_quality.py lines 16-110)

The mesh is loaded by trimesh; loading, the per-face interior angles
(`mesh.face_angles`), and the trimesh-delegated scalars (watertightness,
winding consistency, Euler number) are external inputs. Everything else
is computed by the module itself and embedded here. A Python exception
that escapes the function is modelled as `Except.error`; the only
`try/except` in the source wraps the load call alone. -/

/-- A loaded mesh: vertex positions and triangle index triples. -/
structure MeshData where
  vertices : List Vec3
  faces : List Tri

/-- The statistics record returned on the success path. -/
structure QualityStats where
  vertices_count : ℕ
  faces_count : ℕ
  boundary_edges : ℕ
  boundary_faces : ℕ
  boundary_vertices : ℕ
  non_manifold_edges : ℕ
  non_manifold_vertices : ℕ
  degenerate_faces : ℕ
  is_watertight : Bool
  is_winding_consistent : Bool
  euler_number : ℤ
  avg_min_angle : ℚ
  worst_min_angle : ℚ
  boundary_edge_positions : List ℚ
  non_manifold_edge_positions : List ℚ
  deriving Repr, DecidableEq

/-- The value `compute_quality_stats` returns when it returns at all:
either the structured failure dictionary or the statistics record. -/
inductive QualityResult where
  | failure (error : String)
  | stats (s : QualityStats)
  deriving Repr, DecidableEq

/-- The distinct edge keys of the mesh, in first-occurrence order
(the support of the edge Counter). -/
def distinctEdges (faces : List Tri) : List (ℕ × ℕ) :=
  (edgeKeyList faces).dedup

/-- Boundary edges: canonical edges appearing in exactly one face slot. -/
def boundaryEdges (faces : List Tri) : List (ℕ × ℕ) :=
  (distinctEdges faces).filter (fun e => decide (edgeDegree faces e = 1))

/-- Non-manifold edges: canonical edges appearing in more than two face
slots. -/
def nonManifoldEdges (faces : List Tri) : List (ℕ × ℕ) :=
  (distinctEdges faces).filter (fun e => decide (2 < edgeDegree faces e))

/-- The endpoint vertex set of a list of edges. -/
def edgeEndpoints (es : List (ℕ × ℕ)) : List ℕ :=
  (es.flatMap (fun e => [e.1, e.2])).dedup

/-- The number of faces containing at least one edge from `es`. -/
def facesTouching (faces : List Tri) (es : List (ℕ × ℕ)) : ℕ :=
  faces.countP (fun t => (edgeKeys t).any (fun e => es.contains e))

/-- The flat `[x1,y1,z1,x2,y2,z2, ...]` position array of an edge list. -/
def edgePositions (vertices : List Vec3) (es : List (ℕ × ℕ)) : List ℚ :=
  es.flatMap (fun e =>
    let v0 := vertices.getD e.1 (0, 0, 0)
    let v1 := vertices.getD e.2 (0, 0, 0)
    [v0.1, v0.2.1, v0.2.2, v1.1, v1.2.1, v1.2.2])

/-- The per-face minimum interior angle in degrees:
`np.degrees(np.min(face_angles, axis=1))`. The interior angles come from
trimesh in radians; `degPerRad` is the float constant `180 / pi` used by
`np.degrees`. -/
def minAnglesDeg (faceAngles : List (ℚ × ℚ × ℚ)) (degPerRad : ℚ) : List ℚ :=
  faceAngles.map (fun a => degPerRad * min a.1 (min a.2.1 a.2.2))

/-- `compute_quality_stats`. `load` is the outcome of `trimesh.load`
(the only call inside a `try`): a load exception becomes the structured
failure result. `faceAngles`, `watertight`, `winding` and `euler` are the
trimesh-computed inputs. After the edge analysis, the source takes
`np.mean` (NaN on empty, modelled by the 0 convention of `listMean`) and
then `np.min` of the per-face angle array; the ValueError that `np.min`
raises on an empty array escapes the function, hence `Except.error`. -/
def compute_quality_stats (load : Except String MeshData)
    (faceAngles : List (ℚ × ℚ × ℚ)) (degPerRad : ℚ)
    (watertight winding : Bool) (euler : ℤ) : Except String QualityResult :=
  match load with
  | .error e => .ok (.failure ("Failed to load mesh: " ++ e))
  | .ok mesh =>
    let bEdges := boundaryEdges mesh.faces
    let nmEdges := nonManifoldEdges mesh.faces
    let minDeg := minAnglesDeg faceAngles degPerRad
    match npMin minDeg with
    | .error e => .error e
    | .ok worst =>
      .ok (.stats {
        vertices_count := mesh.vertices.length
        faces_count := mesh.faces.length
        boundary_edges := bEdges.length
        boundary_faces := facesTouching mesh.faces bEdges
        boundary_vertices := (edgeEndpoints bEdges).length
        non_manifold_edges := nmEdges.length
        non_manifold_vertices := (edgeEndpoints nmEdges).length
        degenerate_faces := minDeg.countP (fun a => decide (a < 1))
        is_watertight := watertight
        is_winding_consistent := winding
        euler_number := euler
        avg_min_angle := listMean minDeg
        worst_min_angle := worst
        boundary_edge_positions := edgePositions mesh.vertices bEdges
        non_manifold_edge_positions := edgePositions mesh.vertices nmEdges })

/-! ### Mesh comparison (compare.py lines 57-148)

Surface sampling and the KDTree nearest-neighbor queries are external
(trimesh / scipy); the resulting per-vertex distance array and the
reference bounding-box diagonal are inputs of the embedded statistics
stage. The `try/except` wraps only the two load calls. -/

/-- The comparison statistics of lines 98-101 and the guarded diagonal. -/
structure CompareStats where
  hausdorff : ℚ
  mean_dist : ℚ
  p95 : ℚ
  bb_diagonal : ℚ
  deriving Repr, DecidableEq

/-- The value `compare_meshes` returns when it returns at all. -/
inductive CompareResult where
  | failure (error : String)
  | stats (s : CompareStats)
  deriving Repr, DecidableEq

/-- `num_samples = max(100000, len(mesh_ref.vertices) * 3)` (line 78). -/
def numSamples (vertexCount : ℕ) : ℕ := max 100000 (vertexCount * 3)

/-- The degenerate-diagonal guard of lines 91-93: a bounding-box diagonal
below `1e-10` is floored to `1.0`. -/
def effectiveDiagonal (bbDiagonal : ℚ) : ℚ :=
  if bbDiagonal < 1 / 10000000000 then 1 else bbDiagonal

/-- `rms = sqrt(mean(distances ** 2))` (line 100). -/
noncomputable def compareRms (distances : List ℚ) : ℝ :=
  Real.sqrt ((listMean (distances.map (fun x => x ^ 2)) : ℚ) : ℝ)

/-- `compare_meshes`. `load` is the outcome of the two `trimesh.load`
calls (the only statements inside a `try`); `distances` is the KDTree
query result, one entry per comparison-mesh vertex; `bbDiagonal` is the
reference bounding-box diagonal. The logging line 88 reduces
`distances.min()` before any statistic, so an empty distance array
raises there and the ValueError escapes: `Except.error`. -/
def compare_meshes (load : Except String (MeshData × MeshData))
    (distances : List ℚ) (bbDiagonal : ℚ) : Except String CompareResult :=
  match load with
  | .error e => .ok (.failure ("Failed to load meshes: " ++ e))
  | .ok _ =>
    match npMin distances, npMax distances with
    | .error e, _ => .error e
    | _, .error e => .error e
    | .ok _, .ok mx =>
      .ok (.stats {
        hausdorff := mx
        mean_dist := listMean distances
        p95 := npPercentile distances 95
        bb_diagonal := effectiveDiagonal bbDiagonal })

/-! ### Segmentation operations and dispatcher (segmentation.py lines
13-62 and 550-581)

Each segmentation operation wraps its whole body in `try/except` and
returns the structured failure dictionary on any exception. The external
steps (open3d load and clustering, file write) are inputs here; an
exceptional external outcome is an `Except.error` input that the
operation converts, never re-raises. -/

/-- The structured result every segmentation operation returns. -/
structure SegResult where
  success : Bool
  error : String
  deriving Repr, DecidableEq

/-- `segment_by_connectivity`: `open3d.io.read_triangle_mesh` does not
raise on unreadable input, it returns an empty mesh, answered with the
structured `Mesh vide` failure (lines 29-30); any exception from the
clustering or the write (external outcomes) is caught by the
operation-wide handler and stringified (lines 61-62). -/
def segment_by_connectivity (numVertices : ℕ)
    (clustering : Except String (List ℕ)) (write : Except String Unit) : SegResult :=
  if numVertices = 0 then { success := false, error := "Mesh vide" }
  else
    match clustering with
    | .error e => { success := false, error := e }
    | .ok _ =>
      match write with
      | .error e => { success := false, error := e }
      | .ok _ => { success := true, error := "" }

/-- The dispatcher table keys, in insertion order (lines 568-573). -/
def validMethods : List String :=
  ["connectivity", "sharp_edges", "curvature", "planes"]

/-- The observable effects of a dispatch: which operation ran. -/
inductive SegEffect where
  | invoked (method : String)
  | wroteOutput
  deriving Repr, DecidableEq

/-- `segment_mesh` (lines 550-581): an unknown method name is answered
with the structured failure listing the valid choices, before any
operation is invoked or any file written; a known method dispatches to
its operation (abstracted as `run`, which reports its effects). -/
def segment_mesh (method : String)
    (run : String → SegResult × List SegEffect) : SegResult × List SegEffect :=
  if validMethods.contains method then run method
  else
    ({ success := false,
       error := "Méthode inconnue: " ++ method ++
         ". Choix: ['connectivity', 'sharp_edges', 'curvature', 'planes']" }, [])

/-- `segment_by_sharp_edges` as an error boundary: its whole body runs
inside `try/except` (lines 82-214). `open3d.io.read_triangle_mesh` does
not raise on unreadable input but returns an empty mesh, answered with
the structured `Mesh vide` failure (lines 86-87); the scipy
connected-components call and the final write are the external outcomes
whose exceptions the operation-wide handler (lines 211-214) converts to
the structured failure. -/
def segment_by_sharp_edges_boundary (numVertices : ℕ)
    (components : Except String (ℕ × List ℕ)) (write : Except String Unit) : SegResult :=
  if numVertices = 0 then { success := false, error := "Mesh vide" }
  else
    match components with
    | .error e => { success := false, error := e }
    | .ok _ =>
      match write with
      | .error e => { success := false, error := e }
      | .ok _ => { success := true, error := "" }

/-- `segment_by_curvature` as an error boundary: its whole body runs
inside `try/except` (lines 237-345), with the sklearn import and KMeans
call and the final write as the external outcomes converted by the
operation-wide handler (lines 342-345). -/
def segment_by_curvature_boundary (numVertices : ℕ)
    (kmeans : Except String (List ℕ)) (write : Except String Unit) : SegResult :=
  if numVertices = 0 then { success := false, error := "Mesh vide" }
  else
    match kmeans with
    | .error e => { success := false, error := e }
    | .ok _ =>
      match write with
      | .error e => { success := false, error := e }
      | .ok _ => { success := true, error := "" }

/-- `segment_by_planes` as an error boundary: its whole body runs inside
`try/except` (lines 373-547), with the sklearn import and KMeans call
and the final write as the external outcomes converted by the
operation-wide handler (lines 544-547). -/
def segment_by_planes_boundary (numVertices : ℕ)
    (kmeans : Except String (List ℕ)) (write : Except String Unit) : SegResult :=
  if numVertices = 0 then { success := false, error := "Mesh vide" }
  else
    match kmeans with
    | .error e => { success := false, error := e }
    | .ok _ =>
      match write with
      | .error e => { success := false, error := e }
      | .ok _ => { success := true, error := "" }

/-- The dispatch call `methods[method](input_path, output_path, **kwargs)`
of line 581, including the keyword binding. Python binds the supplied
keyword arguments at the call site, before the selected operation's body
— and therefore its `try/except` — starts running; a keyword that
matches no parameter of the selected operation raises TypeError right
there, and `segment_mesh` itself has no handler, so that TypeError
escapes to the caller. `kwargsOk m` states that every supplied keyword
binds against the signature of method `m`; the raised TypeError is the
`Except.error`. -/
def segment_mesh_call (method : String) (kwargsOk : String → Bool)
    (run : String → SegResult × List SegEffect) :
    Except String (SegResult × List SegEffect) :=
  if validMethods.contains method then
    if kwargsOk method then .ok (run method)
    else .error "TypeError: got an unexpected keyword argument"
  else
    .ok ({ success := false,
           error := "Méthode inconnue: " ++ method ++
             ". Choix: ['connectivity', 'sharp_edges', 'curvature', 'planes']" }, [])

/-! ### Concrete meshes and clusterings used to settle the claims -/

/-- Three triangles all sharing the edge `(0, 1)`: that edge has
adjacency degree 3 (non-manifold), every other edge degree 1. -/
def fanFaces : List Tri := [(0, 1, 2), (0, 1, 3), (0, 1, 4)]

/-- A constant unit normal field. -/
def upNormal : ℕ → Vec3 := fun _ => (0, 0, 1)

/-- Two triangles sharing the manifold edge `(1, 2)`. -/
def pairFaces : List Tri := [(0, 1, 2), (1, 2, 3)]

/-- An over-clustering of 25 faces in which cluster 0 has 5 members
(below the 10-face floor), clusters 1 and 2 have 10 members each. -/
def smallClusterLabels : List ℕ :=
  List.replicate 5 0 ++ List.replicate 10 1 ++ List.replicate 10 2

/-- Normals for `smallClusterLabels`: clusters 0 and 1 are perfectly
coplanar, cluster 2 has half its normals flipped (variance 1). -/
def smallClusterNormals : List Vec3 :=
  List.replicate 15 (0, 0, 1) ++ List.replicate 5 (1, 0, 0)
    ++ List.replicate 5 (-1, 0, 0)

/-- An over-clustering in which every one of 20 faces lands in
cluster 0, with identical normals: one kept planar cluster, so every
face is relabeled 1 and label 0 goes unused. -/
def flatLabels : List ℕ := List.replicate 20 0

/-- Normals for `flatLabels`: a perfectly flat patch. -/
def flatNormals : List Vec3 := List.replicate 20 (0, 0, 1)

/-!
## Theorems

Helper lemmas first, then one theorem per claim (with its witness or
counterexample where required).
-/

/-- Unfolding membership of the edge-to-triangles list: triangle `i` is
listed for edge `e` exactly when `i` indexes a face and `e` is one of
the three canonical edges of that face. -/
theorem mem_edgeTris {faces : List Tri} {e : ℕ × ℕ} {i : ℕ} :
    i ∈ edgeTris faces e ↔
      i < faces.length ∧ e ∈ edgeKeys (faces.getD i (0, 0, 0)) := by
  unfold edgeTris
  simp only [List.mem_flatMap, List.mem_range, List.mem_filterMap]
  constructor
  · rintro ⟨a, ha, e2, he2, hsome⟩
    have h : e2 = e ∧ a = i := by
      by_cases h : e2 = e
      · simp only [h, if_pos] at hsome
        exact ⟨h, Option.some.inj hsome⟩
      · simp [h] at hsome
    obtain ⟨rfl, rfl⟩ := h
    exact ⟨ha, he2⟩
  · rintro ⟨hi, he⟩
    exact ⟨i, hi, e, he, by simp⟩

/-- Any edge listing at least one triangle occurs among the inserted
edge keys. -/
theorem mem_edgeKeyList_of_mem_edgeTris {faces : List Tri} {e : ℕ × ℕ} {i : ℕ}
    (h : i ∈ edgeTris faces e) : e ∈ edgeKeyList faces := by
  rcases mem_edgeTris.mp h with ⟨hi, he⟩
  refine List.mem_flatMap.mpr ⟨faces.getD i (0, 0, 0), ?_, he⟩
  rw [List.getD_eq_getElem faces (0, 0, 0) hi]
  exact List.getElem_mem hi

/-- The neighbor contribution of one edge is symmetric in the two
triangles. -/
theorem neighborHit_symm {faces : List Tri} {i j : ℕ} {e : ℕ × ℕ} :
    neighborHit faces i e = some j ↔ neighborHit faces j e = some i := by
  unfold neighborHit
  rcases h : edgeTris faces e with _ | ⟨a, _ | ⟨b, _ | ⟨c, l⟩⟩⟩ <;> simp only []
  · simp
  · simp
  · by_cases ha : a = i <;> by_cases hb : b = i <;>
      by_cases ha2 : a = j <;> by_cases hb2 : b = j <;>
      simp_all
  · simp

/-- Membership in the built triangle adjacency, unfolded to a single
dictionary entry. -/
theorem mem_build_triangle_adjacency {faces : List Tri} {i j : ℕ} :
    j ∈ build_triangle_adjacency faces i ↔ ∃ e, neighborHit faces i e = some j := by
  unfold build_triangle_adjacency
  simp only [List.mem_toFinset, List.mem_filterMap]
  constructor
  · rintro ⟨e, _, hhit⟩
    exact ⟨e, hhit⟩
  · rintro ⟨e, hhit⟩
    refine ⟨e, ?_, hhit⟩
    have : ∃ a b, edgeTris faces e = [a, b] := by
      unfold neighborHit at hhit
      rcases h : edgeTris faces e with _ | ⟨a, _ | ⟨b, _ | ⟨c, l⟩⟩⟩ <;>
        rw [h] at hhit <;> simp at hhit
      exact ⟨a, b, rfl⟩
    obtain ⟨a, b, hab⟩ := this
    exact mem_edgeKeyList_of_mem_edgeTris (i := a) (by rw [hab]; simp)

/-- A dictionary entry makes `j` a neighbor of `i` exactly when its
triangle list is `[i, j]` or `[j, i]`. -/
theorem neighborHit_eq_some_iff {faces : List Tri} {i j : ℕ} {e : ℕ × ℕ} :
    neighborHit faces i e = some j ↔
      edgeTris faces e = [i, j] ∨ edgeTris faces e = [j, i] := by
  unfold neighborHit
  rcases h : edgeTris faces e with _ | ⟨a, _ | ⟨b, _ | ⟨c, l⟩⟩⟩ <;> simp only []
  · simp
  · simp
  · constructor
    · intro hhit
      by_cases ha : a = i
      · simp only [ha, if_pos] at hhit
        left
        rw [ha, Option.some.inj hhit]
      · by_cases hb : b = i
        · simp only [if_neg ha, hb, if_pos] at hhit
          right
          rw [hb, Option.some.inj hhit]
        · simp [ha, hb] at hhit
    · rintro (hlist | hlist)
      · injection hlist with h1 h2
        injection h2 with h3 _
        subst h1
        subst h3
        simp
      · injection hlist with h1 h2
        injection h2 with h3 _
        rw [h1, h3]
        by_cases hji : j = i <;> simp [hji]
  · simp

/-- C9: for every face array, the triangle-adjacency relation produced
by `build_triangle_adjacency` is symmetric: `j` is in the neighbor set of
`i` iff `i` is in the neighbor set of `j`. -/
theorem C9_adjacency_symm (faces : List Tri) (i j : ℕ) :
    j ∈ build_triangle_adjacency faces i ↔ i ∈ build_triangle_adjacency faces j := by
  rw [mem_build_triangle_adjacency, mem_build_triangle_adjacency]
  constructor
  · rintro ⟨e, h⟩
    exact ⟨e, neighborHit_symm.mp h⟩
  · rintro ⟨e, h⟩
    exact ⟨e, neighborHit_symm.mp h⟩

/-- The dot product is symmetric. -/
theorem dot3_comm (a b : Vec3) : dot3 a b = dot3 b a := by
  unfold dot3
  ring

/-- Cauchy-Schwarz for unit 3D vectors: the dot product lies in
`[-1, 1]`. -/
theorem dot3_unit_bounds {a b : Vec3} (ha : dot3 a a = 1) (hb : dot3 b b = 1) :
    -1 ≤ dot3 a b ∧ dot3 a b ≤ 1 := by
  unfold dot3 at ha hb ⊢
  constructor
  · nlinarith [sq_nonneg (a.1 + b.1), sq_nonneg (a.2.1 + b.2.1), sq_nonneg (a.2.2 + b.2.2)]
  · nlinarith [sq_nonneg (a.1 - b.1), sq_nonneg (a.2.1 - b.2.1), sq_nonneg (a.2.2 - b.2.2)]

/-- Every neighbor of a triangle indexes a face. -/
theorem neighbor_lt_length {faces : List Tri} {i j : ℕ}
    (h : j ∈ build_triangle_adjacency faces i) : j < faces.length := by
  obtain ⟨e, hhit⟩ := mem_build_triangle_adjacency.mp h
  rcases neighborHit_eq_some_iff.mp hhit with hl | hl <;>
    exact (mem_edgeTris.mp (by rw [hl]; simp)).1

/-- A triangle with at least one neighbor indexes a face itself. -/
theorem self_lt_length_of_neighbor {faces : List Tri} {i j : ℕ}
    (h : j ∈ build_triangle_adjacency faces i) : i < faces.length := by
  obtain ⟨e, hhit⟩ := mem_build_triangle_adjacency.mp h
  rcases neighborHit_eq_some_iff.mp hhit with hl | hl <;>
    exact (mem_edgeTris.mp (by rw [hl]; simp)).1

/-- C2: for every mesh, the per-face curvature deviation of
`compute_triangle_curvature` has neighbor set exactly the faces paired
with face `i` by an edge of adjacency degree exactly 2 (boundary and
non-manifold edges contribute no neighbor), equals
`1 - mean(dot(normal_i, normal_j))` over that set when it is nonempty,
equals 0 when it is empty, and for unit face normals always lies in
`[0, 2]`. -/
theorem C2_curvature (faces : List Tri) (normals : ℕ → Vec3)
    (hunit : ∀ m, m < faces.length → dot3 (normals m) (normals m) = 1) :
    (∀ i j, j ∈ build_triangle_adjacency faces i ↔
      (∃ e, edgeDegree faces e = 2 ∧
        (edgeTris faces e = [i, j] ∨ edgeTris faces e = [j, i]))) ∧
    (∀ i, build_triangle_adjacency faces i = ∅ →
      compute_triangle_curvature faces normals i = 0) ∧
    (∀ i, build_triangle_adjacency faces i ≠ ∅ →
      compute_triangle_curvature faces normals i =
        1 - ((build_triangle_adjacency faces i).sum
          (fun j => dot3 (normals i) (normals j))) /
          ((build_triangle_adjacency faces i).card : ℚ)) ∧
    (∀ i, 0 ≤ compute_triangle_curvature faces normals i ∧
      compute_triangle_curvature faces normals i ≤ 2) := by
  refine ⟨?_, ?_, ?_, ?_⟩
  · intro i j
    rw [mem_build_triangle_adjacency]
    constructor
    · rintro ⟨e, h⟩
      rcases neighborHit_eq_some_iff.mp h with hl | hl <;>
        exact ⟨e, by simp [edgeDegree, hl], by simp [hl]⟩
    · rintro ⟨e, _, h⟩
      exact ⟨e, neighborHit_eq_some_iff.mpr h⟩
  · intro i h
    simp [compute_triangle_curvature, h]
  · intro i h
    have hcomm : (build_triangle_adjacency faces i).sum
        (fun j => dot3 (normals j) (normals i)) =
        (build_triangle_adjacency faces i).sum
        (fun j => dot3 (normals i) (normals j)) :=
      Finset.sum_congr rfl (fun j _ => dot3_comm _ _)
    simp [compute_triangle_curvature, h, hcomm]
  · intro i
    unfold compute_triangle_curvature
    by_cases h : build_triangle_adjacency faces i = ∅
    · simp [h]
    · rw [if_neg h]
      set N := build_triangle_adjacency faces i with hN
      set S := N.sum (fun j => dot3 (normals j) (normals i)) with hS
      have hne : N.Nonempty := Finset.nonempty_iff_ne_empty.mpr h
      have hcard : (0 : ℚ) < (N.card : ℚ) := by
        exact_mod_cast Finset.card_pos.mpr hne
      have hi : i < faces.length := by
        obtain ⟨j, hj⟩ := hne
        exact self_lt_length_of_neighbor hj
      have hbound : ∀ j ∈ N,
          -1 ≤ dot3 (normals j) (normals i) ∧ dot3 (normals j) (normals i) ≤ 1 := by
        intro j hj
        exact dot3_unit_bounds (hunit j (neighbor_lt_length hj)) (hunit i hi)
      have hup : S ≤ (N.card : ℚ) := by
        have := Finset.sum_le_card_nsmul N (fun j => dot3 (normals j) (normals i)) 1
          (fun j hj => (hbound j hj).2)
        simpa [← hS] using this
      have hdown : -((N.card : ℚ)) ≤ S := by
        have := Finset.card_nsmul_le_sum N (fun j => dot3 (normals j) (normals i)) (-1)
          (fun j hj => (hbound j hj).1)
        simpa [← hS] using this
      have h1 : S / (N.card : ℚ) ≤ 1 := (div_le_one hcard).mpr hup
      have h2 : -1 ≤ S / (N.card : ℚ) := by
        have h3 : -S / (N.card : ℚ) ≤ 1 := (div_le_one hcard).mpr (by linarith)
        rw [neg_div] at h3
        linarith
      exact ⟨by linarith, by linarith⟩

/-- Witness for C2 on a concrete two-triangle mesh with unit normals. -/
theorem C2_witness :
    (∀ m, m < pairFaces.length → dot3 (upNormal m) (upNormal m) = 1) ∧
    (0 ≤ compute_triangle_curvature pairFaces upNormal 0 ∧
      compute_triangle_curvature pairFaces upNormal 0 ≤ 2) :=
  ⟨fun m _ => by norm_num [upNormal, dot3],
   (C2_curvature pairFaces upNormal (fun m _ => by norm_num [upNormal, dot3])).2.2.2 0⟩

/-- Byte quantization is monotone. -/
theorem toByte_mono {x y : ℚ} (h : x ≤ y) : toByte x ≤ toByte y := by
  unfold toByte
  exact Int.toNat_le_toNat (Int.floor_mono (by nlinarith))

/-- Clipping is the identity on `[0, 1]`. -/
theorem clip01_of_mem {x : ℚ} (h0 : 0 ≤ x) (h1 : x ≤ 1) : clip01 x = x := by
  unfold clip01
  rw [min_eq_right h1, max_eq_right h0]

/-- The clipped value lies in `[0, 1]`. -/
theorem clip01_mem (v : ℚ) : 0 ≤ clip01 v ∧ clip01 v ≤ 1 :=
  ⟨le_max_left 0 _, max_le (by norm_num) (min_le_left 1 v)⟩

/-- C4: the scalar-to-heatmap color mapper clamps its input to `[0, 1]`,
always emits alpha 255, maps 0.0 to pure blue `(0,0,255,255)` and 1.0 to
pure red `(255,0,0,255)`, and within each of the four sub-ranges each of
the R, G, B channels is monotone in the input, following the
blue-to-cyan-to-green-to-yellow-to-red piecewise-linear ramp. -/
theorem C4_heatmap (v x y : ℚ) :
    scalar_to_rgba 0 = (0, 0, 255, 255) ∧
    scalar_to_rgba 1 = (255, 0, 0, 255) ∧
    (scalar_to_rgba v).2.2.2 = 255 ∧
    scalar_to_rgba v = scalar_to_rgba (clip01 v) ∧
    (x ≤ y →
      (0 ≤ x ∧ y < 1/4 →
        (scalar_to_rgba x).1 = 0 ∧ (scalar_to_rgba y).1 = 0 ∧
        (scalar_to_rgba x).2.1 ≤ (scalar_to_rgba y).2.1 ∧
        (scalar_to_rgba x).2.2.1 = 255 ∧ (scalar_to_rgba y).2.2.1 = 255) ∧
      (1/4 ≤ x ∧ y < 1/2 →
        (scalar_to_rgba x).1 = 0 ∧ (scalar_to_rgba y).1 = 0 ∧
        (scalar_to_rgba x).2.1 = 255 ∧ (scalar_to_rgba y).2.1 = 255 ∧
        (scalar_to_rgba y).2.2.1 ≤ (scalar_to_rgba x).2.2.1) ∧
      (1/2 ≤ x ∧ y < 3/4 →
        (scalar_to_rgba x).1 ≤ (scalar_to_rgba y).1 ∧
        (scalar_to_rgba x).2.1 = 255 ∧ (scalar_to_rgba y).2.1 = 255 ∧
        (scalar_to_rgba x).2.2.1 = 0 ∧ (scalar_to_rgba y).2.2.1 = 0) ∧
      (3/4 ≤ x ∧ y ≤ 1 →
        (scalar_to_rgba x).1 = 255 ∧ (scalar_to_rgba y).1 = 255 ∧
        (scalar_to_rgba y).2.1 ≤ (scalar_to_rgba x).2.1 ∧
        (scalar_to_rgba x).2.2.1 = 0 ∧ (scalar_to_rgba y).2.2.1 = 0)) := by
  refine ⟨?_, ?_, rfl, ?_, ?_⟩
  · show (toByte _, toByte _, toByte _, 255) = (0, 0, 255, 255)
    rw [show clip01 0 = 0 from clip01_of_mem le_rfl (by norm_num)]
    rw [show rampRGB 0 = (0, 0, 1) by unfold rampRGB; norm_num]
    norm_num [toByte] <;> simp
  · show (toByte _, toByte _, toByte _, 255) = (255, 0, 0, 255)
    rw [show clip01 1 = 1 from clip01_of_mem (by norm_num) le_rfl]
    rw [show rampRGB 1 = (1, 0, 0) by unfold rampRGB; norm_num]
    norm_num [toByte] <;> simp
  · unfold scalar_to_rgba
    rw [clip01_of_mem (clip01_mem v).1 (clip01_mem v).2]
  · intro hxy
    refine ⟨?_, ?_, ?_, ?_⟩
    · rintro ⟨hx0, hy4⟩
      have hcx : clip01 x = x := clip01_of_mem hx0 (by linarith)
      have hcy : clip01 y = y := clip01_of_mem (by linarith) (by linarith)
      have hrx : rampRGB x = (0, x / (1/4), 1) := by
        unfold rampRGB
        rw [if_pos (by linarith)]
      have hry : rampRGB y = (0, y / (1/4), 1) := by
        unfold rampRGB
        rw [if_pos hy4]
      unfold scalar_to_rgba
      rw [hcx, hcy, hrx, hry]
      refine ⟨by norm_num [toByte] <;> simp, by norm_num [toByte] <;> simp, ?_, by norm_num [toByte] <;> simp,
        by norm_num [toByte] <;> simp⟩
      exact toByte_mono (by nlinarith)
    · rintro ⟨hx4, hy2⟩
      have hcx : clip01 x = x := clip01_of_mem (by linarith) (by linarith)
      have hcy : clip01 y = y := clip01_of_mem (by linarith) (by linarith)
      have hrx : rampRGB x = (0, 1, 1 - (x - 1/4) / (1/4)) := by
        unfold rampRGB
        rw [if_neg (by linarith), if_pos (by linarith)]
      have hry : rampRGB y = (0, 1, 1 - (y - 1/4) / (1/4)) := by
        unfold rampRGB
        rw [if_neg (by linarith), if_pos hy2]
      unfold scalar_to_rgba
      rw [hcx, hcy, hrx, hry]
      refine ⟨by norm_num [toByte] <;> simp, by norm_num [toByte] <;> simp, by norm_num [toByte] <;> simp,
        by norm_num [toByte] <;> simp, ?_⟩
      exact toByte_mono (by nlinarith)
    · rintro ⟨hx2, hy34⟩
      have hcx : clip01 x = x := clip01_of_mem (by linarith) (by linarith)
      have hcy : clip01 y = y := clip01_of_mem (by linarith) (by linarith)
      have hrx : rampRGB x = ((x - 1/2) / (1/4), 1, 0) := by
        unfold rampRGB
        rw [if_neg (by linarith), if_neg (by linarith), if_pos (by linarith)]
      have hry : rampRGB y = ((y - 1/2) / (1/4), 1, 0) := by
        unfold rampRGB
        rw [if_neg (by linarith), if_neg (by linarith), if_pos hy34]
      unfold scalar_to_rgba
      rw [hcx, hcy, hrx, hry]
      refine ⟨?_, by norm_num [toByte] <;> simp, by norm_num [toByte] <;> simp, by norm_num [toByte] <;> simp,
        by norm_num [toByte] <;> simp⟩
      exact toByte_mono (by nlinarith)
    · rintro ⟨hx34, hy1⟩
      have hcx : clip01 x = x := clip01_of_mem (by linarith) (by linarith)
      have hcy : clip01 y = y := clip01_of_mem (by linarith) hy1
      have hrx : rampRGB x = (1, 1 - (x - 3/4) / (1/4), 0) := by
        unfold rampRGB
        rw [if_neg (by linarith), if_neg (by linarith), if_neg (by linarith)]
      have hry : rampRGB y = (1, 1 - (y - 3/4) / (1/4), 0) := by
        unfold rampRGB
        rw [if_neg (by linarith), if_neg (by linarith), if_neg (by linarith)]
      unfold scalar_to_rgba
      rw [hcx, hcy, hrx, hry]
      refine ⟨by norm_num [toByte] <;> simp, by norm_num [toByte] <;> simp, ?_, by norm_num [toByte] <;> simp,
        by norm_num [toByte] <;> simp⟩
      exact toByte_mono (by nlinarith)

/-- Witness for C4 in the first sub-range, at `x = 0`, `y = 1/8`. -/
theorem C4_witness :
    ((0 : ℚ) ≤ 1/8 ∧ (0 : ℚ) ≤ 0 ∧ (1/8 : ℚ) < 1/4) ∧
    ((scalar_to_rgba 0).1 = 0 ∧ (scalar_to_rgba (1/8)).1 = 0 ∧
      (scalar_to_rgba 0).2.1 ≤ (scalar_to_rgba (1/8)).2.1 ∧
      (scalar_to_rgba 0).2.2.1 = 255 ∧ (scalar_to_rgba (1/8)).2.2.1 = 255) :=
  ⟨⟨by norm_num, le_rfl, by norm_num⟩,
    ((C4_heatmap 0 0 (1/8)).2.2.2.2 (by norm_num)).1 ⟨le_rfl, by norm_num⟩⟩

/-- C10: for every method string not among the four registered methods,
the dispatcher `segment_mesh` returns the structured failure result whose
message names the unknown method and lists the valid choices, without
invoking any segmentation operation or producing any effect. -/
theorem C10_unknown_method (m : String) (run : String → SegResult × List SegEffect)
    (h : m ∉ validMethods) :
    segment_mesh m run =
      ({ success := false,
         error := "Méthode inconnue: " ++ m ++
           ". Choix: ['connectivity', 'sharp_edges', 'curvature', 'planes']" }, []) := by
  unfold segment_mesh
  rw [if_neg (by simpa using h)]

/-- Witness for C10 at the unknown method string `foo`. -/
theorem C10_witness :
    "foo" ∉ validMethods ∧
    segment_mesh "foo" (fun m => ({ success := true, error := "" }, [SegEffect.invoked m])) =
      ({ success := false,
         error := "Méthode inconnue: " ++ "foo" ++
           ". Choix: ['connectivity', 'sharp_edges', 'curvature', 'planes']" }, []) :=
  ⟨by decide, C10_unknown_method "foo" _ (by decide)⟩

/-- C5: applied to a mesh with zero faces, the topology classifier is
specified to return a successful all-empty classification; the module
indeed classifies no boundary or non-manifold edges, but the unguarded
`np.min` over the empty per-face minimum-angle array raises a ValueError
that escapes `compute_quality_stats` (its only `try` wraps the load), so
the operation errors instead of returning the promised empty result. -/
theorem C5_zero_faces (vs : List Vec3) (dpr : ℚ) (wt wc : Bool) (eu : ℤ) :
    boundaryEdges [] = [] ∧ nonManifoldEdges [] = [] ∧
    compute_quality_stats (.ok ⟨vs, []⟩) [] dpr wt wc eu =
      .error "zero-size array to reduction operation minimum which has no identity" :=
  ⟨rfl, rfl, rfl⟩

/-- C8 (amended): each of the four segmentation operations catches
exceptions across its whole body, converting invalid input (an empty
mesh) and every exceptional external outcome (clustering, file write)
into the structured failure result and never letting one escape;
`compute_quality_stats` and `compare_meshes` convert only mesh-loading
failures into the structured failure result, and an exception raised
after loading (such as the empty-array reduction in `compare_meshes`)
propagates uncaught; and the dispatcher `segment_mesh` has no handler of
its own: it answers an unknown method with the structured failure
without invoking anything, but the TypeError raised when the supplied
keyword arguments do not bind against the selected operation propagates
uncaught, because Python raises it at the dispatch call, before the
operation's own handler is entered. -/
theorem C8_amended :
    (∀ e fa dpr wt wc eu, compute_quality_stats (.error e) fa dpr wt wc eu =
      .ok (.failure ("Failed to load mesh: " ++ e))) ∧
    (∀ e d b, compare_meshes (.error e) d b =
      .ok (.failure ("Failed to load meshes: " ++ e))) ∧
    (∀ meshes b, compare_meshes (.ok meshes) [] b =
      .error "zero-size array to reduction operation minimum which has no identity") ∧
    (∀ n c w, segment_by_connectivity n c w =
      if n = 0 then { success := false, error := "Mesh vide" }
      else match c with
        | .error e => { success := false, error := e }
        | .ok _ => match w with
          | .error e => { success := false, error := e }
          | .ok _ => { success := true, error := "" }) ∧
    (∀ n c w, segment_by_sharp_edges_boundary n c w =
      if n = 0 then { success := false, error := "Mesh vide" }
      else match c with
        | .error e => { success := false, error := e }
        | .ok _ => match w with
          | .error e => { success := false, error := e }
          | .ok _ => { success := true, error := "" }) ∧
    (∀ n c w, segment_by_curvature_boundary n c w =
      if n = 0 then { success := false, error := "Mesh vide" }
      else match c with
        | .error e => { success := false, error := e }
        | .ok _ => match w with
          | .error e => { success := false, error := e }
          | .ok _ => { success := true, error := "" }) ∧
    (∀ n c w, segment_by_planes_boundary n c w =
      if n = 0 then { success := false, error := "Mesh vide" }
      else match c with
        | .error e => { success := false, error := e }
        | .ok _ => match w with
          | .error e => { success := false, error := e }
          | .ok _ => { success := true, error := "" }) ∧
    (∀ m kw run, m ∉ validMethods →
      segment_mesh_call m kw run =
        .ok ({ success := false,
               error := "Méthode inconnue: " ++ m ++
                 ". Choix: ['connectivity', 'sharp_edges', 'curvature', 'planes']" }, [])) ∧
    (∀ m kw run, m ∈ validMethods → kw m = false →
      segment_mesh_call m kw run =
        .error "TypeError: got an unexpected keyword argument") ∧
    (∀ m kw run, m ∈ validMethods → kw m = true →
      segment_mesh_call m kw run = .ok (run m)) := by
  refine ⟨fun _ _ _ _ _ _ => rfl, fun _ _ _ => rfl, fun _ _ => rfl,
    fun _ _ _ => rfl, fun _ _ _ => rfl, fun _ _ _ => rfl, fun _ _ _ => rfl,
    ?_, ?_, ?_⟩
  · intro m kw run hm
    unfold segment_mesh_call
    rw [if_neg (by simpa using hm)]
  · intro m kw run hm hkw
    unfold segment_mesh_call
    rw [if_pos (by simpa using hm), if_neg (by simp [hkw])]
  · intro m kw run hm hkw
    unfold segment_mesh_call
    rw [if_pos (by simpa using hm), if_pos hkw]

/-- Witness for C8: the dispatch of the known method `connectivity` with
keyword arguments that do not bind raises the modelled TypeError. -/
theorem C8_witness :
    "connectivity" ∈ validMethods ∧ (fun _ : String => false) "connectivity" = false ∧
    segment_mesh_call "connectivity" (fun _ => false)
      (fun m => ({ success := true, error := "" }, [SegEffect.invoked m])) =
      .error "TypeError: got an unexpected keyword argument" :=
  ⟨by decide, rfl,
    C8_amended.2.2.2.2.2.2.2.2.1 "connectivity" (fun _ => false)
      (fun m => ({ success := true, error := "" }, [SegEffect.invoked m]))
      (by decide) rfl⟩

/-- Counterexample to C8 as stated: comparing against a comparison mesh
with no vertices makes the distance array empty, and the numpy reduction
raises an uncaught ValueError, so this analyzer input yields no
structured result at all. -/
theorem C8_counterexample :
    ¬ ∃ r, compare_meshes (.ok (⟨[(0, 0, 0)], []⟩, ⟨[], []⟩)) [] 1 = .ok r := by
  rintro ⟨r, hr⟩
  have h : compare_meshes (.ok (⟨[(0, 0, 0)], []⟩, ⟨[], []⟩)) [] (1 : ℚ) =
      .error "zero-size array to reduction operation minimum which has no identity" := rfl
  rw [h] at hr
  cases hr

/-- The left fold of `max` lands on one of its inputs. -/
theorem foldl_max_mem (l : List ℚ) (x : ℚ) : l.foldl max x ∈ x :: l := by
  induction l generalizing x with
  | nil => simp
  | cons y t ih =>
    simp only [List.foldl_cons]
    rcases List.mem_cons.mp (ih (max x y)) with h | h
    · rcases max_choice x y with hm | hm <;> rw [h, hm]
      · exact List.mem_cons_self _ _
      · exact List.mem_cons_of_mem _ (List.mem_cons_self _ _)
    · exact List.mem_cons_of_mem _ (List.mem_cons_of_mem _ h)

/-- The left fold of `max` bounds every input. -/
theorem le_foldl_max (l : List ℚ) (x : ℚ) : ∀ y ∈ x :: l, y ≤ l.foldl max x := by
  induction l generalizing x with
  | nil =>
    intro y hy
    rw [List.mem_singleton] at hy
    simp [hy]
  | cons z t ih =>
    intro y hy
    simp only [List.foldl_cons]
    rcases List.mem_cons.mp hy with rfl | hy2
    · exact le_trans (le_max_left y z) (ih (max y z) _ (List.mem_cons_self _ _))
    · rcases List.mem_cons.mp hy2 with rfl | hy3
      · exact le_trans (le_max_right x y) (ih (max x y) _ (List.mem_cons_self _ _))
      · exact ih (max x z) y (List.mem_cons_of_mem _ hy3)

/-- C7: the sample count is `max(100000, 3 * vertex_count)`; on a
nonempty distance array the reported Hausdorff statistic is the maximum
of the array, the mean is the arithmetic mean, p95 is the numpy linear
95th percentile, RMS is `sqrt(mean(d^2))`, and the bounding-box diagonal
is floored to 1.0 exactly when it is below `1e-10`. -/
theorem C7_compare (vc : ℕ) (meshes : MeshData × MeshData) (d : List ℚ) (b : ℚ)
    (hd : d ≠ []) :
    numSamples vc = max 100000 (3 * vc) ∧
    (∃ s, compare_meshes (.ok meshes) d b = .ok (.stats s) ∧
      s.hausdorff ∈ d ∧ (∀ x ∈ d, x ≤ s.hausdorff) ∧
      s.mean_dist = d.sum / (d.length : ℚ) ∧
      s.p95 = npPercentile d 95 ∧
      s.bb_diagonal = effectiveDiagonal b) ∧
    (0 ≤ compareRms d ∧
      compareRms d ^ 2 = (((d.map (fun x => x ^ 2)).sum / (d.length : ℚ) : ℚ) : ℝ)) ∧
    (b < 1 / 10000000000 → effectiveDiagonal b = 1) ∧
    (¬ b < 1 / 10000000000 → effectiveDiagonal b = b) := by
  refine ⟨by rw [numSamples, Nat.mul_comm], ?_, ⟨Real.sqrt_nonneg _, ?_⟩, ?_, ?_⟩
  · match d, hd with
    | x :: rest, _ =>
      refine ⟨_, rfl, ?_, ?_, rfl, rfl, rfl⟩
      · exact foldl_max_mem rest x
      · exact le_foldl_max rest x
  · unfold compareRms listMean
    have hq : (0 : ℚ) ≤ (d.map (fun x => x ^ 2)).sum / ((d.map (fun x => x ^ 2)).length : ℚ) := by
      apply div_nonneg
      · apply List.sum_nonneg
        intro a ha
        rcases List.mem_map.mp ha with ⟨z, _, rfl⟩
        positivity
      · positivity
    rw [Real.sq_sqrt (by exact_mod_cast hq)]
    rw [List.length_map]
  · intro hb
    unfold effectiveDiagonal
    rw [if_pos hb]
  · intro hb
    unfold effectiveDiagonal
    rw [if_neg hb]

/-- Witness for C7 at the one-element distance array `[1]`. -/
theorem C7_witness :
    ([(1 : ℚ)] ≠ []) ∧
    (∃ s, compare_meshes (.ok (⟨[], []⟩, ⟨[], []⟩)) [(1 : ℚ)] 2 = .ok (.stats s) ∧
      s.hausdorff ∈ [(1 : ℚ)]) := by
  refine ⟨by simp, ?_⟩
  obtain ⟨-, ⟨s, hs, hmem, -⟩, -⟩ :=
    C7_compare 0 (⟨[], []⟩, ⟨[], []⟩) [(1 : ℚ)] 2 (by simp)
  exact ⟨s, hs, hmem⟩

/-- C1 (amended): an edge is marked sharp exactly when its adjacency
degree is 1, or its degree is 2 and the dihedral angle
`arccos(clip(dot(n1,n2),-1,1))` of its two adjacent faces strictly
exceeds the threshold; and two distinct faces are connected in the
face-adjacency graph iff they share an edge of adjacency degree exactly
2 that is not marked sharp (an edge of degree 3 or more connects
nothing, even when it is not sharp). -/
theorem C1_amended (faces : List Tri) (normals : ℕ → Vec3) (θ : ℝ) :
    (∀ e, IsSharp faces normals θ e ↔
      (edgeDegree faces e = 1 ∨
        (edgeDegree faces e = 2 ∧ ∃ i j, edgeTris faces e = [i, j] ∧
          θ < Real.arccos ((clip1 (dot3 (normals i) (normals j)) : ℝ))))) ∧
    (∀ i j, i ≠ j →
      (SharpAdjacent faces normals θ i j ↔
        ∃ e, ¬ IsSharp faces normals θ e ∧ edgeDegree faces e = 2 ∧
          i ∈ edgeTris faces e ∧ j ∈ edgeTris faces e)) := by
  constructor
  · intro e
    unfold IsSharp edgeDegree
    rcases h : edgeTris faces e with _ | ⟨a, _ | ⟨b, _ | ⟨c, l⟩⟩⟩
    · simp
    · simp
    · simp only [List.length_cons, List.length_nil]
      norm_num
      constructor
      · intro hs
        exact ⟨a, b, ⟨rfl, rfl⟩, hs⟩
      · rintro ⟨i, j, ⟨h1, h2⟩, hangle⟩
        rw [h1, h2]
        exact hangle
    · simp
  · intro i j hij
    constructor
    · rintro ⟨e, hns, hl | hl⟩
      · exact ⟨e, hns, by simp [edgeDegree, hl], by simp [hl], by simp [hl]⟩
      · exact ⟨e, hns, by simp [edgeDegree, hl], by simp [hl], by simp [hl]⟩
    · rintro ⟨e, hns, hdeg, hi, hj⟩
      obtain ⟨a, b, hab⟩ := List.length_eq_two.mp hdeg
      rw [hab] at hi hj
      simp only [List.mem_cons, List.mem_singleton, List.not_mem_nil, or_false] at hi hj
      refine ⟨e, hns, ?_⟩
      rcases hi with rfl | rfl
      · rcases hj with rfl | rfl
        · exact absurd rfl hij
        · exact Or.inl hab
      · rcases hj with rfl | rfl
        · exact Or.inr hab
        · exact absurd rfl hij

/-- Counterexample to C1 as stated: in the three-triangle fan, faces 0
and 1 share the non-manifold edge `(0, 1)` of degree 3, which is not
marked sharp, yet the built face-adjacency graph connects nothing, since
only edges with exactly two adjacent triangles produce graph edges. -/
theorem C1_counterexample :
    ¬ (SharpAdjacent fanFaces upNormal (thresholdRad 45) 0 1 ↔
       SharesNonSharpEdge fanFaces upNormal (thresholdRad 45) 0 1) := by
  intro hiff
  have hE : edgeTris fanFaces (0, 1) = [0, 1, 2] := by decide
  have hns : ¬ IsSharp fanFaces upNormal (thresholdRad 45) (0, 1) := by
    unfold IsSharp
    rw [hE]
    simp
  have hshare : SharesNonSharpEdge fanFaces upNormal (thresholdRad 45) 0 1 :=
    ⟨(0, 1), hns, by rw [hE]; simp, by rw [hE]; simp⟩
  obtain ⟨e, hns2, hcase⟩ := hiff.mpr hshare
  rcases hcase with hl | hl
  · have h0 : (0 : ℕ) ∈ edgeTris fanFaces e := by rw [hl]; simp
    obtain ⟨h0len, h0mem⟩ := mem_edgeTris.mp h0
    have hkeys : edgeKeys (fanFaces.getD 0 (0, 0, 0)) = [(0, 1), (1, 2), (0, 2)] := by
      decide
    rw [hkeys] at h0mem
    simp only [List.mem_cons, List.mem_singleton, List.not_mem_nil, or_false] at h0mem
    rcases h0mem with rfl | rfl | rfl
    · rw [hE] at hl
      exact absurd hl (by decide)
    · rw [show edgeTris fanFaces (1, 2) = [0] from by decide] at hl
      exact absurd hl (by decide)
    · rw [show edgeTris fanFaces (0, 2) = [0] from by decide] at hl
      exact absurd hl (by decide)
  · have h1 : (1 : ℕ) ∈ edgeTris fanFaces e := by rw [hl]; simp
    obtain ⟨h1len, h1mem⟩ := mem_edgeTris.mp h1
    have hkeys : edgeKeys (fanFaces.getD 1 (0, 0, 0)) = [(0, 1), (1, 3), (0, 3)] := by
      decide
    rw [hkeys] at h1mem
    simp only [List.mem_cons, List.mem_singleton, List.not_mem_nil, or_false] at h1mem
    rcases h1mem with rfl | rfl | rfl
    · rw [hE] at hl
      exact absurd hl (by decide)
    · rw [show edgeTris fanFaces (1, 3) = [1] from by decide] at hl
      exact absurd hl (by decide)
    · rw [show edgeTris fanFaces (0, 3) = [1] from by decide] at hl
      exact absurd hl (by decide)

/-- Witness for C1 on the concrete fan mesh at the face pair `(0, 1)`. -/
theorem C1_witness :
    (0 : ℕ) ≠ 1 ∧
    (SharpAdjacent fanFaces upNormal (thresholdRad 45) 0 1 ↔
      ∃ e, ¬ IsSharp fanFaces upNormal (thresholdRad 45) e ∧
        edgeDegree fanFaces e = 2 ∧ 0 ∈ edgeTris fanFaces e ∧ 1 ∈ edgeTris fanFaces e) :=
  ⟨by decide, (C1_amended fanFaces upNormal (thresholdRad 45)).2 0 1 (by decide)⟩

/-- Membership in `cluster_scores`: exactly the cluster ids below `k`
with at least 10 member faces, paired with their variance and size. -/
theorem mem_clusterScores {labels : List ℕ} {normals : List Vec3} {k c : ℕ} {v : ℚ} {s : ℕ} :
    (c, v, s) ∈ clusterScores labels normals k ↔
      (c < k ∧ ¬ (clusterNormals labels normals c).length < 10 ∧
        v = normalVariance (clusterNormals labels normals c) ∧
        s = (clusterNormals labels normals c).length) := by
  unfold clusterScores
  simp only [List.mem_filterMap, List.mem_range]
  constructor
  · rintro ⟨c2, hc2, hsome⟩
    by_cases h : (clusterNormals labels normals c2).length < 10
    · rw [if_pos h] at hsome
      exact absurd hsome (by simp)
    · rw [if_neg h] at hsome
      obtain ⟨rfl, rfl, rfl⟩ : c2 = c ∧
          normalVariance (clusterNormals labels normals c2) = v ∧
          (clusterNormals labels normals c2).length = s := by
        have heq := Option.some.inj hsome
        exact ⟨congrArg Prod.fst heq, congrArg (fun p => p.2.1) heq,
          congrArg (fun p => p.2.2) heq⟩
      exact ⟨hc2, h, rfl, rfl⟩
  · rintro ⟨hck, hlen, rfl, rfl⟩
    exact ⟨c, hck, by rw [if_neg hlen]⟩

/-- The sorted score list is a permutation of the score list. -/
theorem mem_sortedScores {labels : List ℕ} {normals : List Vec3} {k : ℕ} {x : ℕ × ℚ × ℕ} :
    x ∈ sortedScores labels normals k ↔ x ∈ clusterScores labels normals k :=
  (List.perm_insertionSort scoreLE _).mem_iff

/-- Membership in `plane_clusters`: the scored clusters whose variance is
strictly below the adaptive threshold. -/
theorem mem_planeClusters {labels : List ℕ} {normals : List Vec3} {k c : ℕ} :
    c ∈ planeClusters labels normals k ↔
      ∃ v s, (c, v, s) ∈ clusterScores labels normals k ∧
        v < adaptiveThreshold labels normals k := by
  unfold planeClusters
  simp only [List.mem_map, List.mem_filter]
  constructor
  · rintro ⟨x, ⟨hx, hlt⟩, rfl⟩
    refine ⟨x.2.1, x.2.2, ?_, by simpa using hlt⟩
    have hmem : x ∈ clusterScores labels normals k := mem_sortedScores.mp hx
    simpa using hmem
  · rintro ⟨v, s, hmem, hlt⟩
    exact ⟨(c, v, s), ⟨mem_sortedScores.mpr hmem, by simpa using hlt⟩, rfl⟩

/-- The first components of the score list are the scored cluster ids,
in ascending id order. -/
theorem filterMap_scores_fst (labels : List ℕ) (normals : List Vec3) (L : List ℕ) :
    ((L.filterMap (fun c =>
      if (clusterNormals labels normals c).length < 10 then none
      else some (c, normalVariance (clusterNormals labels normals c),
        (clusterNormals labels normals c).length))).map (fun s => s.1)) =
    L.filter (fun c => decide (¬ (clusterNormals labels normals c).length < 10)) := by
  induction L with
  | nil => rfl
  | cons c t ih =>
    rw [List.filterMap_cons, List.filter_cons]
    by_cases h : (clusterNormals labels normals c).length < 10
    · simp [h, ih]
    · simp [h, ih]

/-- The kept plane-cluster ids are pairwise distinct. -/
theorem nodup_planeClusters (labels : List ℕ) (normals : List Vec3) (k : ℕ) :
    (planeClusters labels normals k).Nodup := by
  have h1 : ((clusterScores labels normals k).map (fun s => s.1)).Nodup := by
    unfold clusterScores
    rw [filterMap_scores_fst]
    exact (List.nodup_range k).filter _
  have h2 : ((sortedScores labels normals k).map (fun s => s.1)).Nodup :=
    (List.Perm.nodup_iff ((List.perm_insertionSort scoreLE _).map _)).mpr h1
  exact List.Nodup.sublist ((List.filter_sublist _).map _) h2

/-- Sorting a permuted rational list gives the same sorted list. -/
theorem sortQ_perm_eq {xs ys : List ℚ} (h : List.Perm xs ys) : sortQ xs = sortQ ys := by
  unfold sortQ
  exact @List.eq_of_perm_of_sorted ℚ (· ≤ ·) _ _ _
    ((List.perm_insertionSort (· ≤ ·) xs).trans
      (h.trans (List.perm_insertionSort (· ≤ ·) ys).symm))
    (List.sorted_insertionSort (· ≤ ·) xs)
    (List.sorted_insertionSort (· ≤ ·) ys)

/-- The numpy median is invariant under permutation of its input. -/
theorem npMedian_perm {xs ys : List ℚ} (h : List.Perm xs ys) : npMedian xs = npMedian ys := by
  unfold npMedian
  rw [sortQ_perm_eq h]

/-- C3 (amended): clusters with fewer than 10 member faces are excluded
before scoring; the adaptive threshold equals
`max(0.005, median(scored cluster variances) / 2)`; every scored cluster
whose variance is strictly below the threshold is kept, ranked by
variance ascending, up to `num_planes`; the faces of kept clusters are
relabeled `1..K` (id `p`-th kept cluster to `p+1`) and every other face
receives 0; and when zero clusters pass the threshold the raw
over-clustering labels are returned unfiltered with
`num_segments = initial_clusters`. -/
theorem C3_amended (labels : List ℕ) (normals : List Vec3) (numPlanes : ℕ) :
    adaptiveThreshold labels normals (max (numPlanes * 2) 10) =
      max (1 / 200)
        (npMedian ((clusterScores labels normals (max (numPlanes * 2) 10)).map
          (fun s => s.2.1)) / 2) ∧
    (∀ c v s, (c, v, s) ∈ clusterScores labels normals (max (numPlanes * 2) 10) ↔
      (c < max (numPlanes * 2) 10 ∧ ¬ (clusterNormals labels normals c).length < 10 ∧
        v = normalVariance (clusterNormals labels normals c) ∧
        s = (clusterNormals labels normals c).length)) ∧
    (∀ c, c ∈ planeClusters labels normals (max (numPlanes * 2) 10) ↔
      ∃ v s, (c, v, s) ∈ clusterScores labels normals (max (numPlanes * 2) 10) ∧
        v < adaptiveThreshold labels normals (max (numPlanes * 2) 10)) ∧
    List.Sorted scoreLE ((sortedScores labels normals (max (numPlanes * 2) 10)).filter
      (fun s => decide (s.2.1 < adaptiveThreshold labels normals (max (numPlanes * 2) 10)))) ∧
    (keptClusters labels normals numPlanes).Nodup ∧
    keptClusters labels normals numPlanes =
      (planeClusters labels normals (max (numPlanes * 2) 10)).take numPlanes ∧
    (planeClusters labels normals (max (numPlanes * 2) 10) = [] →
      segment_by_planes labels normals numPlanes = (max (numPlanes * 2) 10, labels)) ∧
    (planeClusters labels normals (max (numPlanes * 2) 10) ≠ [] →
      segment_by_planes labels normals numPlanes =
        ((keptClusters labels normals numPlanes).length + 1,
          labels.map (planeRelabel (keptClusters labels normals numPlanes)))) ∧
    (∀ l, (l ∈ keptClusters labels normals numPlanes →
        planeRelabel (keptClusters labels normals numPlanes) l =
          (keptClusters labels normals numPlanes).indexOf l + 1) ∧
      (l ∉ keptClusters labels normals numPlanes →
        planeRelabel (keptClusters labels normals numPlanes) l = 0)) := by
  refine ⟨?_, fun c v s => mem_clusterScores, fun c => mem_planeClusters, ?_, ?_, rfl,
    ?_, ?_, ?_⟩
  · unfold adaptiveThreshold sortedScores
    rw [npMedian_perm ((List.perm_insertionSort scoreLE _).map _)]
  · exact List.Pairwise.sublist (List.filter_sublist _) (List.sorted_insertionSort scoreLE _)
  · exact List.Nodup.sublist (List.take_sublist _ _)
      (nodup_planeClusters labels normals (max (numPlanes * 2) 10))
  · intro h
    simp [segment_by_planes, h]
  · intro h
    simp only [segment_by_planes, keptClusters]
    rw [show (planeClusters labels normals (max (numPlanes * 2) 10)).isEmpty = false from
      by simpa using h]
    simp
  · intro l
    constructor
    · intro hmem
      unfold planeRelabel
      rw [if_pos hmem]
    · intro hmem
      unfold planeRelabel
      rw [if_neg hmem]

/-- Witness for C3 on the empty clustering, taking the fallback branch. -/
theorem C3_witness :
    planeClusters [] [] (max (0 * 2) 10) = [] ∧
    segment_by_planes [] [] 0 = (max (0 * 2) 10, []) :=
  ⟨rfl, (C3_amended [] [] 0).2.2.2.2.2.2.1 rfl⟩

/-- Counterexample to C3 as stated: in the 25-face over-clustering,
cluster 0 is perfectly coplanar (variance 0, strictly below the adaptive
threshold 1/4) and nonempty, the kept list is not full (1 kept, up to 3
allowed), yet cluster 0 is not kept, because its 5 faces are below the
10-face floor applied before scoring. -/
theorem C3_counterexample :
    normalVariance (clusterNormals smallClusterLabels smallClusterNormals 0) <
      adaptiveThreshold smallClusterLabels smallClusterNormals 10 ∧
    (clusterNormals smallClusterLabels smallClusterNormals 0).length = 5 ∧
    (keptClusters smallClusterLabels smallClusterNormals 3).length < 3 ∧
    0 ∉ keptClusters smallClusterLabels smallClusterNormals 3 := by
  have hc0 : clusterNormals smallClusterLabels smallClusterNormals 0 =
      [(0, 0, 1), (0, 0, 1), (0, 0, 1), (0, 0, 1), (0, 0, 1)] := by rfl
  have hc1 : clusterNormals smallClusterLabels smallClusterNormals 1 =
      [(0, 0, 1), (0, 0, 1), (0, 0, 1), (0, 0, 1), (0, 0, 1),
       (0, 0, 1), (0, 0, 1), (0, 0, 1), (0, 0, 1), (0, 0, 1)] := by rfl
  have hc2 : clusterNormals smallClusterLabels smallClusterNormals 2 =
      [(1, 0, 0), (1, 0, 0), (1, 0, 0), (1, 0, 0), (1, 0, 0),
       (-1, 0, 0), (-1, 0, 0), (-1, 0, 0), (-1, 0, 0), (-1, 0, 0)] := by rfl
  have hv0 : normalVariance (clusterNormals smallClusterLabels smallClusterNormals 0) = 0 := by
    rw [hc0]
    norm_num [normalVariance, popVar, listMean]
  have hv1 : normalVariance (clusterNormals smallClusterLabels smallClusterNormals 1) = 0 := by
    rw [hc1]
    norm_num [normalVariance, popVar, listMean]
  have hv2 : normalVariance (clusterNormals smallClusterLabels smallClusterNormals 2) = 1 := by
    rw [hc2]
    norm_num [normalVariance, popVar, listMean]
  have hs : clusterScores smallClusterLabels smallClusterNormals 10 =
      [(1, normalVariance (clusterNormals smallClusterLabels smallClusterNormals 1), 10),
       (2, normalVariance (clusterNormals smallClusterLabels smallClusterNormals 2), 10)] := by
    rfl
  rw [hv1, hv2] at hs
  have hsorted : sortedScores smallClusterLabels smallClusterNormals 10 =
      [(1, 0, 10), (2, 1, 10)] := by
    unfold sortedScores
    rw [hs]
    norm_num [List.insertionSort, List.orderedInsert, scoreLE]
  have hmed : npMedian [(0 : ℚ), 1] = 1 / 2 := by
    norm_num [npMedian, sortQ, List.insertionSort, List.orderedInsert, List.getD]
  have hthr : adaptiveThreshold smallClusterLabels smallClusterNormals 10 = 1 / 4 := by
    unfold adaptiveThreshold
    rw [hsorted]
    simp only [List.map_cons, List.map_nil]
    norm_num [hmed]
  have hpc : planeClusters smallClusterLabels smallClusterNormals 10 = [1] := by
    unfold planeClusters
    rw [hsorted, hthr]
    norm_num [List.filter]
  have hkept : keptClusters smallClusterLabels smallClusterNormals 3 = [1] := by
    have h10 : keptClusters smallClusterLabels smallClusterNormals 3 =
        (planeClusters smallClusterLabels smallClusterNormals 10).take 3 := rfl
    rw [h10, hpc]
    rfl
  refine ⟨?_, ?_, ?_, ?_⟩
  · rw [hv0, hthr]
    norm_num
  · rw [hc0]
    rfl
  · rw [hkept]
    norm_num
  · rw [hkept]
    simp

/-- The representative of a node is reachable from it. -/
theorem compRep_reachable (n : ℕ) (adj : ℕ → ℕ → Bool) (i : Fin n) :
    (segGraph n adj).Reachable i (compRep n adj i) := by
  have h := Finset.min'_mem
    (Finset.univ.filter (fun j => (segGraph n adj).Reachable i j))
    ⟨i, Finset.mem_filter.mpr ⟨Finset.mem_univ i, SimpleGraph.Reachable.refl i⟩⟩
  exact (Finset.mem_filter.mp h).2

/-- Nodes in the same component have the same representative. -/
theorem compRep_eq_of_reachable {n : ℕ} {adj : ℕ → ℕ → Bool} {i j : Fin n}
    (h : (segGraph n adj).Reachable i j) : compRep n adj i = compRep n adj j := by
  have hset : Finset.univ.filter (fun x => (segGraph n adj).Reachable i x) =
      Finset.univ.filter (fun x => (segGraph n adj).Reachable j x) := by
    ext x
    simp only [Finset.mem_filter, Finset.mem_univ, true_and]
    exact ⟨fun hx => h.symm.trans hx, fun hx => h.trans hx⟩
  unfold compRep
  apply le_antisymm
  · apply Finset.min'_le
    rw [hset]
    exact Finset.mem_filter.mpr ⟨Finset.mem_univ _, compRep_reachable n adj j⟩
  · apply Finset.min'_le
    rw [← hset]
    exact Finset.mem_filter.mpr ⟨Finset.mem_univ _, compRep_reachable n adj i⟩

/-- The representative map is idempotent. -/
theorem compRep_idem (n : ℕ) (adj : ℕ → ℕ → Bool) (i : Fin n) :
    compRep n adj (compRep n adj i) = compRep n adj i :=
  (compRep_eq_of_reachable (compRep_reachable n adj i)).symm

/-- The representative of every node occurs in the representative list. -/
theorem compRep_mem_repList (n : ℕ) (adj : ℕ → ℕ → Bool) (i : Fin n) :
    compRep n adj i ∈ repList n adj := by
  unfold repList
  refine List.mem_filter.mpr ⟨List.mem_finRange _, ?_⟩
  simp [compRep_idem]

/-- The representative list has no duplicates. -/
theorem nodup_repList (n : ℕ) (adj : ℕ → ℕ → Bool) : (repList n adj).Nodup :=
  (List.nodup_finRange n).filter _

/-- The kept cluster ids are pairwise distinct. -/
theorem nodup_keptClusters (labels : List ℕ) (normals : List Vec3) (numPlanes : ℕ) :
    (keptClusters labels normals numPlanes).Nodup :=
  List.Nodup.sublist (List.take_sublist _ _)
    (nodup_planeClusters labels normals (max (numPlanes * 2) 10))

/-- The fallback branch of `segment_by_planes`. -/
theorem segment_by_planes_nil {labels : List ℕ} {normals : List Vec3} {numPlanes : ℕ}
    (h : planeClusters labels normals (max (numPlanes * 2) 10) = []) :
    segment_by_planes labels normals numPlanes = (max (numPlanes * 2) 10, labels) := by
  simp [segment_by_planes, h]

/-- The relabeling branch of `segment_by_planes`. -/
theorem segment_by_planes_cons {labels : List ℕ} {normals : List Vec3} {numPlanes : ℕ}
    (h : planeClusters labels normals (max (numPlanes * 2) 10) ≠ []) :
    segment_by_planes labels normals numPlanes =
      ((keptClusters labels normals numPlanes).length + 1,
        labels.map (planeRelabel (keptClusters labels normals numPlanes))) := by
  simp only [segment_by_planes, keptClusters]
  rw [show (planeClusters labels normals (max (numPlanes * 2) 10)).isEmpty = false from
    by simpa using h]
  simp

/-- C6 (amended): connected-component sharp-edge labels are dense — one
label per face and the used labels are exactly `{0..num_segments-1}` —
for every adjacency matrix; planar segmentation assigns each face exactly
one label strictly below `num_segments` and uses every label in `1..K`
for the K kept clusters, but label 0 can go unused (and in the fallback
branch the raw over-clustering labels are returned as is), so its used
label set need not be all of `{0..num_segments-1}`. -/
theorem C6_amended (n : ℕ) (adj : ℕ → ℕ → Bool) (labels : List ℕ) (normals : List Vec3)
    (numPlanes : ℕ) (hL : ∀ l ∈ labels, l < max (numPlanes * 2) 10) :
    (ccLabels n adj).length = n ∧
    (ccLabels n adj).toFinset = Finset.range (ccCount n adj) ∧
    ((segment_by_planes labels normals numPlanes).2).length = labels.length ∧
    (∀ l ∈ (segment_by_planes labels normals numPlanes).2,
      l < (segment_by_planes labels normals numPlanes).1) ∧
    (∀ m, 0 < m → m ≤ (keptClusters labels normals numPlanes).length →
      m ∈ (segment_by_planes labels normals numPlanes).2) := by
  refine ⟨by simp [ccLabels], ?_, ?_, ?_, ?_⟩
  · ext l
    simp only [List.mem_toFinset, ccLabels, List.mem_map, Finset.mem_range]
    constructor
    · rintro ⟨i, -, rfl⟩
      exact List.indexOf_lt_length.mpr (compRep_mem_repList n adj i)
    · intro hl
      refine ⟨(repList n adj).get ⟨l, hl⟩, List.mem_finRange _, ?_⟩
      have hget : (repList n adj).get ⟨l, hl⟩ ∈ repList n adj := (repList n adj).get_mem _ _
      have hrep : compRep n adj ((repList n adj).get ⟨l, hl⟩) =
          (repList n adj).get ⟨l, hl⟩ := by
        have h2 := (List.mem_filter.mp hget).2
        simpa using h2
      unfold ccLabel
      rw [hrep]
      have h3 := List.get_indexOf (nodup_repList n adj) ⟨l, hl⟩
      simpa using h3
  · by_cases hpc : planeClusters labels normals (max (numPlanes * 2) 10) = []
    · rw [segment_by_planes_nil hpc]
    · rw [segment_by_planes_cons hpc]
      simp
  · by_cases hpc : planeClusters labels normals (max (numPlanes * 2) 10) = []
    · rw [segment_by_planes_nil hpc]
      exact hL
    · rw [segment_by_planes_cons hpc]
      intro l hm
      simp only [List.mem_map] at hm
      obtain ⟨x, -, rfl⟩ := hm
      unfold planeRelabel
      split_ifs with hx
      · have h4 := List.indexOf_lt_length.mpr hx
        omega
      · omega
  · intro m hm0 hmle
    have hkne : keptClusters labels normals numPlanes ≠ [] := by
      intro h
      rw [h] at hmle
      simp at hmle
      omega
    have hpc : planeClusters labels normals (max (numPlanes * 2) 10) ≠ [] := by
      intro h
      apply hkne
      unfold keptClusters
      rw [h, List.take_nil]
    rw [segment_by_planes_cons hpc]
    have hmlt : m - 1 < (keptClusters labels normals numPlanes).length := by omega
    have hcmem : (keptClusters labels normals numPlanes).get ⟨m - 1, hmlt⟩ ∈
        keptClusters labels normals numPlanes :=
      (keptClusters labels normals numPlanes).get_mem _ _
    have hcidx : (keptClusters labels normals numPlanes).indexOf
        ((keptClusters labels normals numPlanes).get ⟨m - 1, hmlt⟩) = m - 1 := by
      have h5 := List.get_indexOf (nodup_keptClusters labels normals numPlanes) ⟨m - 1, hmlt⟩
      simpa using h5
    have hcpc : (keptClusters labels normals numPlanes).get ⟨m - 1, hmlt⟩ ∈
        planeClusters labels normals (max (numPlanes * 2) 10) :=
      List.take_subset _ _ hcmem
    obtain ⟨v, s, hscore, -⟩ := mem_planeClusters.mp hcpc
    obtain ⟨-, hlen10, -, -⟩ := mem_clusterScores.mp hscore
    have hne : clusterNormals labels normals
        ((keptClusters labels normals numPlanes).get ⟨m - 1, hmlt⟩) ≠ [] := by
      intro h
      rw [h] at hlen10
      simp at hlen10
    obtain ⟨x, hx⟩ := List.exists_mem_of_ne_nil _ hne
    obtain ⟨p, hp, hpsome⟩ := List.mem_filterMap.mp hx
    obtain ⟨pa, pb⟩ := p
    have hpa : pa = (keptClusters labels normals numPlanes).get ⟨m - 1, hmlt⟩ := by
      by_cases h : pa = (keptClusters labels normals numPlanes).get ⟨m - 1, hmlt⟩
      · exact h
      · rw [if_neg h] at hpsome
        cases hpsome
    have hclabels : (keptClusters labels normals numPlanes).get ⟨m - 1, hmlt⟩ ∈ labels := by
      rw [← hpa]
      exact (List.mem_zip hp).1
    refine List.mem_map.mpr ⟨_, hclabels, ?_⟩
    unfold planeRelabel
    rw [if_pos hcmem, hcidx]
    omega

/-- Counterexample to C6 as stated: on the flat 20-face patch the single
over-cluster is kept, every face is relabeled 1, and `num_segments` is 2,
so the set of labels actually used is `{1}`, not `{0, 1}`: label 0 goes
unused and the used-label set has a gap at 0. -/
theorem C6_counterexample :
    (segment_by_planes flatLabels flatNormals 3).1 = 2 ∧
    ((segment_by_planes flatLabels flatNormals 3).2).toFinset ≠
      Finset.range (segment_by_planes flatLabels flatNormals 3).1 := by
  have hc0 : clusterNormals flatLabels flatNormals 0 =
      [(0, 0, 1), (0, 0, 1), (0, 0, 1), (0, 0, 1), (0, 0, 1),
       (0, 0, 1), (0, 0, 1), (0, 0, 1), (0, 0, 1), (0, 0, 1),
       (0, 0, 1), (0, 0, 1), (0, 0, 1), (0, 0, 1), (0, 0, 1),
       (0, 0, 1), (0, 0, 1), (0, 0, 1), (0, 0, 1), (0, 0, 1)] := by rfl
  have hv0 : normalVariance (clusterNormals flatLabels flatNormals 0) = 0 := by
    rw [hc0]
    norm_num [normalVariance, popVar, listMean]
  have hs : clusterScores flatLabels flatNormals 10 =
      [(0, normalVariance (clusterNormals flatLabels flatNormals 0), 20)] := by rfl
  rw [hv0] at hs
  have hsorted : sortedScores flatLabels flatNormals 10 = [(0, 0, 20)] := by
    unfold sortedScores
    rw [hs]
    simp [List.insertionSort, List.orderedInsert]
  have hmed : npMedian [(0 : ℚ)] = 0 := by
    norm_num [npMedian, sortQ, List.insertionSort, List.orderedInsert, List.getD]
  have hthr : adaptiveThreshold flatLabels flatNormals 10 = 1 / 200 := by
    unfold adaptiveThreshold
    rw [hsorted]
    simp only [List.map_cons, List.map_nil]
    norm_num [hmed]
  have hpc : planeClusters flatLabels flatNormals 10 = [0] := by
    unfold planeClusters
    rw [hsorted, hthr]
    norm_num [List.filter]
  have hkt : keptClusters flatLabels flatNormals 3 = [0] := by
    have h10 : keptClusters flatLabels flatNormals 3 =
        (planeClusters flatLabels flatNormals 10).take 3 := rfl
    rw [h10, hpc]
    rfl
  have hpcne : planeClusters flatLabels flatNormals (max (3 * 2) 10) ≠ [] := by
    have : planeClusters flatLabels flatNormals (max (3 * 2) 10) =
        planeClusters flatLabels flatNormals 10 := rfl
    rw [this, hpc]
    simp
  have hseg := segment_by_planes_cons hpcne
  rw [hkt] at hseg
  have hout : segment_by_planes flatLabels flatNormals 3 =
      (2, List.replicate 20 1) := by
    rw [hseg]
    refine Prod.ext rfl ?_
    show flatLabels.map (planeRelabel [0]) = List.replicate 20 1
    unfold flatLabels
    rw [List.map_replicate]
    rfl
  refine ⟨by rw [hout], ?_⟩
  rw [hout]
  intro h
  have h0 : (0 : ℕ) ∈ Finset.range 2 := by simp
  rw [← h] at h0
  rw [List.mem_toFinset] at h0
  have h1 := List.eq_of_mem_replicate h0
  cases h1

/-- Witness for C6 on the flat patch and a one-node trivial graph. -/
theorem C6_witness :
    (∀ l ∈ flatLabels, l < max (3 * 2) 10) ∧
    ((segment_by_planes flatLabels flatNormals 3).2).length = flatLabels.length ∧
    (ccLabels 1 (fun _ _ => false)).length = 1 := by
  have h := C6_amended 1 (fun _ _ => false) flatLabels flatNormals 3 (by decide)
  exact ⟨by decide, h.2.2.1, h.1⟩

end AnyMesh
